import Mathlib

/-!
Shallow embedding of the websocket dispatch server (package `websocket`):
the `Server` struct, `RegisterService`, `NewServer` and the per-connection
read-dispatch-respond loop `handleConnection`.

Conventions of the embedding:
* Go `[3]byte` identifiers become `Id3 := Nat × Nat × Nat` with byte-exact
  (component-wise) equality.
* Go `[]byte` becomes `Bytes := List Nat`; `[]byte(err.Error())` becomes
  `strBytes` applied to the error string.
* The Go map `map[[3]byte]*ServiceDescription` is embedded as
  `Option (List (Id3 × ServiceDescription α))`: `none` is the nil map
  (reads of a nil map yield the zero value, writes to a nil map panic),
  `some l` an initialized map represented as an association list.
* The opaque `interface{}` payload/result type is a type parameter `α`.
* The connection is embedded by its observable behaviour: the inbound
  side is a list of read results (`Except`: an error ends the loop), the
  outbound side a schedule of write outcomes (`none` = the write succeeds,
  `some e` = `WriteMessage` fails with error `e`; an exhausted schedule
  means all further writes succeed).  The session produces a trace of
  `Event`s (reads, write attempts, logger calls, `conn.Close()`).
* Mutation of the `Server` receiver is explicit state passing: the loop
  returns the final `Server` next to the trace.
-/

namespace Websocket

/-- Go `[]byte`. -/
abbrev Bytes := List Nat

/-- Go `[3]byte`, the fixed-width service / method identifier. -/
abbrev Id3 := Nat × Nat × Nat

/-- `[]byte(s)` for a Go string `s` (error messages written raw). -/
def strBytes (s : String) : Bytes :=
  s.data.map Char.toNat

/-- A registered endpoint handler: `handler(payload) -> (result, error)`. -/
abbrev Handler (α : Type) := α → Except String α

/-- Modelled from the spec: the `ServiceDescription` type is not among the
repository files provided (only its caller `handleConnection` and the
registration path are).  Per the data model of the spec it owns a
ServiceIdentifier (`protocolName`, the field name `RegisterService` reads)
and a mapping from MethodIdentifier to a handler callable. -/
structure ServiceDescription (α : Type) where
  protocolName : Id3
  endpoints : List (Id3 × Handler α)

/-- The injected codec: `Decode` and `Encode` of the `ProtocolHandler`
interface. -/
structure ProtocolHandler (α : Type) where
  Decode : Bytes → Except String (Id3 × Id3 × α)
  Encode : Id3 → Id3 → α → Except String Bytes

/-- The `Server` struct.  The logger is opaque; its `Log` calls appear as
trace events. -/
structure Server (α : Type) where
  protocolHandler : ProtocolHandler α
  logger : Unit
  services : Option (List (Id3 × ServiceDescription α))

/-- Association-list lookup with byte-exact key equality. -/
def lookupId {β : Type} : List (Id3 × β) → Id3 → Option β
  | [], _ => none
  | (k, v) :: rest, key => if k = key then some v else lookupId rest key

/-- A read `m[key]` of a Go map that may be nil: a nil map reads as empty,
a missing key yields the zero value (`none` stands for a nil
`*ServiceDescription`). -/
def goMapGet {α : Type} (m : Option (List (Id3 × ServiceDescription α)))
    (key : Id3) : Option (ServiceDescription α) :=
  match m with
  | none => none
  | some l => lookupId l key

/-- Outcome of `RegisterService`: the returned error (or nil), or the
run-time panic a write to a nil map raises. -/
inductive RegOutcome
  | ok
  | errored (msg : String)
  | panicked
deriving DecidableEq

/-- `(*Server).RegisterService`: the duplicate check is a read (safe on a
nil map), the insertion `s.services[sd.protocolName] = sd` panics when the
map is nil.  The resulting `Server` is returned explicitly. -/
def Server.RegisterService {α : Type} (s : Server α) (sd : ServiceDescription α) :
    RegOutcome × Server α :=
  match goMapGet s.services sd.protocolName with
  | some _ => (RegOutcome.errored "Service Endpoint already exists", s)
  | none =>
    match s.services with
    | none => (RegOutcome.panicked, s)
    | some l =>
      (RegOutcome.ok, { s with services := some (l ++ [(sd.protocolName, sd)]) })

/-- `NewServer`: only `protocolHandler` and `logger` are set; the
`services` field keeps its zero value, the nil map. -/
def NewServer {α : Type} (ph : ProtocolHandler α) (logger : Unit) : Server α :=
  { protocolHandler := ph, logger := logger, services := none }

/-- Modelled from the spec: `ServiceDescription.EndpointHandler` is not among
the repository files provided.  Per the service-author contract of the spec it
returns the handler registered for the method, or an error signalling an
unknown method; per the `Resolve` contract of the spec, resolution with an absent
service (the session reaches the call through a nil-map lookup, so the
receiver is `Option`) fails with the unknown-service error. -/
def EndpointHandler {α : Type} (sd? : Option (ServiceDescription α)) (me : Id3) :
    Except String (Handler α) :=
  match sd? with
  | none => Except.error "unknown service"
  | some sd =>
    match lookupId sd.endpoints me with
    | none => Except.error "unknown method"
    | some h => Except.ok h

/-- One observable step of a session on its connection. -/
inductive Event
  | read (messageType : Nat) (message : Bytes)
  | readFailed
  | write (messageType : Nat) (message : Bytes) (ok : Bool)
  | log (err : String)
  | close
deriving DecidableEq

/-- The per-message pipeline of `handleConnection`: decode, resolve through
`s.services[srv].EndpointHandler(me)`, invoke, encode.  Every error branch
of the loop writes `[]byte(err.Error())` and the success branch writes the
encoded response, so the result of the pipeline is exactly the bytes the
iteration hands to `conn.WriteMessage`. -/
def dispatchMessage {α : Type} (s : Server α) (request : Bytes) : Bytes :=
  match s.protocolHandler.Decode request with
  | Except.error e => strBytes e
  | Except.ok (srv, me, data) =>
    match EndpointHandler (goMapGet s.services srv) me with
    | Except.error e => strBytes e
    | Except.ok handler =>
      match handler data with
      | Except.error e => strBytes e
      | Except.ok res =>
        match s.protocolHandler.Encode srv me res with
        | Except.error e => strBytes e
        | Except.ok response => response

/-- `(*Server).handleConnection`: the read loop.  A failed read closes the
connection and returns.  Otherwise the iteration writes
the bytes of `dispatchMessage` with the message type of the inbound read; if that write
fails the error is logged, the connection closed and the loop ends, else
the loop continues with the remaining input. -/
def handleConnection {α : Type} (s : Server α) :
    List (Except String (Nat × Bytes)) → List (Option String) →
    List Event × Server α
  | [], _ => ([], s)
  | Except.error _ :: _, _ => ([Event.readFailed, Event.close], s)
  | Except.ok (messageType, request) :: rest, writes =>
    match writes with
    | some werr :: _ =>
      ([Event.read messageType request,
        Event.write messageType (dispatchMessage s request) false,
        Event.log werr, Event.close], s)
    | none :: wrest =>
      let t := handleConnection s rest wrest
      (Event.read messageType request ::
        Event.write messageType (dispatchMessage s request) true :: t.1, t.2)
    | [] =>
      let t := handleConnection s rest []
      (Event.read messageType request ::
        Event.write messageType (dispatchMessage s request) true :: t.1, t.2)

/-! ## Concrete fixtures (the testable scenario of the spec)

Service `[0x01,0x00,0x00]`, method `[0x00,0x00,0x01]` mapped to a handler
echoing its input, a second method mapped to a failing handler, and a small
concrete codec (first six bytes are the identifiers, the rest the payload)
standing in for the injected `ProtocolHandler`. -/

def pingService : Id3 := (1, 0, 0)

def pingMethod : Id3 := (0, 0, 1)

def boomMethod : Id3 := (0, 0, 2)

def pingBytes : Bytes := strBytes "ping"

def echoHandler : Handler Bytes := fun b => Except.ok b

def boomHandler : Handler Bytes := fun _ => Except.error "boom"

def echoSD : ServiceDescription Bytes :=
  { protocolName := pingService,
    endpoints := [(pingMethod, echoHandler), (boomMethod, boomHandler)] }

def testPH : ProtocolHandler Bytes where
  Decode := fun msg =>
    match msg with
    | s1 :: s2 :: s3 :: m1 :: m2 :: m3 :: payload =>
      Except.ok ((s1, s2, s3), (m1, m2, m3), payload)
    | _ => Except.error "malformed message"
  Encode := fun srv me res =>
    Except.ok (srv.1 :: srv.2.1 :: srv.2.2 :: me.1 :: me.2.1 :: me.2.2 :: res)

/-- A codec whose `Encode` always fails, for the encode-failure scenario. -/
def badEncodePH : ProtocolHandler Bytes where
  Decode := testPH.Decode
  Encode := fun _ _ _ => Except.error "encode failed"

def testServer : Server Bytes :=
  { protocolHandler := testPH, logger := (), services := some [(pingService, echoSD)] }

def badEncodeServer : Server Bytes :=
  { protocolHandler := badEncodePH, logger := (), services := some [(pingService, echoSD)] }

/-- A server whose services map is initialized but empty. -/
def emptyServer : Server Bytes :=
  { protocolHandler := testPH, logger := (), services := some [] }

def pingMsg : Bytes := 1 :: 0 :: 0 :: 0 :: 0 :: 1 :: pingBytes

def unknownServiceMsg : Bytes := 2 :: 0 :: 0 :: 0 :: 0 :: 1 :: pingBytes

def unknownMethodMsg : Bytes := 1 :: 0 :: 0 :: 0 :: 0 :: 9 :: pingBytes

def boomMsg : Bytes := 1 :: 0 :: 0 :: 0 :: 0 :: 2 :: pingBytes

def badMsg : Bytes := [1, 2, 3]

/-! ## Helper lemmas -/

theorem lookupId_append {β : Type} (l₁ l₂ : List (Id3 × β)) (k : Id3) :
    lookupId (l₁ ++ l₂) k = (lookupId l₁ k).or (lookupId l₂ k) := by
  induction l₁ with
  | nil => simp [lookupId]
  | cons p t ih =>
    obtain ⟨a, b⟩ := p
    by_cases h : a = k <;> simp [lookupId, h, ih]

/-! ## Registration -/

/-- Claim C9: `NewServer` returns a `Server` whose services map is nil (it
never initializes it), so on every server it constructs the very first
`RegisterService` call reaches the insertion into a nil map and panics
rather than succeeding; more generally, whenever the services map is nil,
`RegisterService` panics, so its success path presupposes an initialized
map. -/
theorem NewServer_nil_services_register_panics {α : Type} (ph : ProtocolHandler α)
    (logger : Unit) (sd : ServiceDescription α) :
    (NewServer ph logger).services = none
    ∧ (NewServer ph logger).RegisterService sd = (RegOutcome.panicked, NewServer ph logger)
    ∧ ∀ s : Server α, s.services = none →
        s.RegisterService sd = (RegOutcome.panicked, s) :=
  ⟨rfl, rfl, fun s h => by simp [Server.RegisterService, goMapGet, h]⟩

/-- Claim C2 counterexample: on the registry state `NewServer` produces
(the nil services map) the identifier `pingService` is absent, yet
`RegisterService` does not insert it and return no error — it panics on the
nil-map write. -/
theorem RegisterService_nil_map_cex :
    goMapGet (NewServer testPH ()).services pingService = none
    ∧ (NewServer testPH ()).RegisterService echoSD
        = (RegOutcome.panicked, NewServer testPH ()) :=
  ⟨rfl, rfl⟩

/-- Claim C2 (amended): on every server whose services map is initialized
(`some l`), `RegisterService` of a `ServiceDescription` whose identifier is
already present returns an error and leaves the server — in particular the
registry and its existing mapping — exactly as it was; when the identifier
is absent it inserts the description and returns no error, the new
identifier resolves to the inserted description, and every other key reads
as before. -/
theorem RegisterService_duplicate_and_insert {α : Type} (s : Server α)
    (l : List (Id3 × ServiceDescription α)) (sd : ServiceDescription α)
    (hinit : s.services = some l) :
    (∀ sd0, lookupId l sd.protocolName = some sd0 →
        s.RegisterService sd
          = (RegOutcome.errored "Service Endpoint already exists", s))
    ∧ (lookupId l sd.protocolName = none →
        (s.RegisterService sd).1 = RegOutcome.ok
        ∧ goMapGet (s.RegisterService sd).2.services sd.protocolName = some sd
        ∧ ∀ k, k ≠ sd.protocolName →
            goMapGet (s.RegisterService sd).2.services k = goMapGet s.services k) := by
  refine ⟨fun sd0 h => ?_, fun h => ?_⟩
  · simp [Server.RegisterService, goMapGet, hinit, h]
  · have hreg : s.RegisterService sd
        = (RegOutcome.ok, { s with services := some (l ++ [(sd.protocolName, sd)]) }) := by
      simp [Server.RegisterService, goMapGet, hinit, h]
    refine ⟨by rw [hreg], ?_, fun k hk => ?_⟩
    · rw [hreg]
      simp [goMapGet, lookupId_append, h, lookupId]
    · rw [hreg, hinit]
      simp only [goMapGet, lookupId_append, lookupId]
      rw [if_neg (Ne.symm hk)]
      simp [Option.or_none]

/-- Claim C2 witness: registering the echo service on an initialized empty
registry succeeds and the identifier resolves to it. -/
theorem RegisterService_duplicate_and_insert_witness :
    (emptyServer.RegisterService echoSD).1 = RegOutcome.ok
    ∧ goMapGet (emptyServer.RegisterService echoSD).2.services pingService
        = some echoSD :=
  ⟨((RegisterService_duplicate_and_insert emptyServer [] echoSD rfl).2 rfl).1,
   ((RegisterService_duplicate_and_insert emptyServer [] echoSD rfl).2 rfl).2.1⟩

/-! ## The session loop, one iteration at a time -/

/-- One successful-write iteration of the loop: read, write the dispatched
bytes, continue with the remaining input. -/
theorem handleConnection_cons_ok {α : Type} (s : Server α) (mt : Nat) (request : Bytes)
    (rest : List (Except String (Nat × Bytes))) (wrest : List (Option String)) :
    handleConnection s (Except.ok (mt, request) :: rest) (none :: wrest)
      = (Event.read mt request ::
          Event.write mt (dispatchMessage s request) true ::
          (handleConnection s rest wrest).1,
         (handleConnection s rest wrest).2) := rfl

/-- Claim C1: when the decoded service identifier is absent from the
registry, or present with the method identifier unregistered under it, the
session writes the resolution error as a raw response on the same
connection and returns to `Reading` — the loop continues on the remaining
input with the session open, with no close and no crash. -/
theorem resolution_failure_reported_session_continues {α : Type} (s : Server α)
    (mt : Nat) (request : Bytes) (srv me : Id3) (data : α)
    (rest : List (Except String (Nat × Bytes))) (wrest : List (Option String))
    (hdec : s.protocolHandler.Decode request = Except.ok (srv, me, data))
    (hres : goMapGet s.services srv = none ∨
      ∃ sd, goMapGet s.services srv = some sd ∧ lookupId sd.endpoints me = none) :
    ∃ e, EndpointHandler (goMapGet s.services srv) me = Except.error e
      ∧ handleConnection s (Except.ok (mt, request) :: rest) (none :: wrest)
        = (Event.read mt request :: Event.write mt (strBytes e) true ::
            (handleConnection s rest wrest).1,
           (handleConnection s rest wrest).2) := by
  have herr : ∃ e, EndpointHandler (goMapGet s.services srv) me = Except.error e := by
    rcases hres with h | ⟨sd, h1, h2⟩
    · exact ⟨"unknown service", by simp [EndpointHandler, h]⟩
    · exact ⟨"unknown method", by simp [EndpointHandler, h1, h2]⟩
  obtain ⟨e, he⟩ := herr
  refine ⟨e, he, ?_⟩
  rw [handleConnection_cons_ok]
  have hd : dispatchMessage s request = strBytes e := by
    simp [dispatchMessage, hdec, he]
  rw [hd]

/-- Claim C1 witness: a message for the unregistered service `(2,0,0)` on
the test server draws the raw resolution-error write and the loop goes on. -/
theorem resolution_failure_witness :
    ∃ e, EndpointHandler (goMapGet testServer.services (2, 0, 0)) (0, 0, 1)
        = Except.error e
      ∧ handleConnection testServer [Except.ok (2, unknownServiceMsg)] [none]
        = (Event.read 2 unknownServiceMsg :: Event.write 2 (strBytes e) true ::
            (handleConnection testServer [] []).1,
           (handleConnection testServer [] []).2) :=
  resolution_failure_reported_session_continues testServer 2 unknownServiceMsg
    (2, 0, 0) (0, 0, 1) pingBytes [] [] rfl (Or.inl rfl)

/-- Claim C3: a message decoding to a registered (service, method) pair
invokes exactly the handler registered for that pair with the decoded
payload, and on handler success the encoding by the codec of (service, method,
result) is written to the connection, after which the loop continues. -/
theorem registered_pair_dispatch {α : Type} (s : Server α)
    (mt : Nat) (request : Bytes) (srv me : Id3) (data res : α)
    (sd : ServiceDescription α) (h : Handler α) (response : Bytes)
    (rest : List (Except String (Nat × Bytes))) (wrest : List (Option String))
    (hdec : s.protocolHandler.Decode request = Except.ok (srv, me, data))
    (hsd : goMapGet s.services srv = some sd)
    (hmeth : lookupId sd.endpoints me = some h)
    (hres : h data = Except.ok res)
    (henc : s.protocolHandler.Encode srv me res = Except.ok response) :
    EndpointHandler (goMapGet s.services srv) me = Except.ok h
    ∧ handleConnection s (Except.ok (mt, request) :: rest) (none :: wrest)
      = (Event.read mt request :: Event.write mt response true ::
          (handleConnection s rest wrest).1,
         (handleConnection s rest wrest).2) := by
  have hep : EndpointHandler (goMapGet s.services srv) me = Except.ok h := by
    simp [EndpointHandler, hsd, hmeth]
  refine ⟨hep, ?_⟩
  rw [handleConnection_cons_ok]
  have hd : dispatchMessage s request = response := by
    simp [dispatchMessage, hdec, hep, hres, henc]
  rw [hd]

/-- Claim C3 witness: the concrete scenario of the spec — the echo handler of
service `(1,0,0)` method `(0,0,1)` echoes payload "ping" and exactly one
encoded response carrying "ping" is written. -/
theorem registered_pair_dispatch_witness :
    EndpointHandler (goMapGet testServer.services (1, 0, 0)) (0, 0, 1)
        = Except.ok echoHandler
    ∧ handleConnection testServer [Except.ok (2, pingMsg)] [none]
      = (Event.read 2 pingMsg ::
          Event.write 2 (1 :: 0 :: 0 :: 0 :: 0 :: 1 :: pingBytes) true ::
          (handleConnection testServer [] []).1,
         (handleConnection testServer [] []).2) :=
  registered_pair_dispatch testServer 2 pingMsg (1, 0, 0) (0, 0, 1)
    pingBytes pingBytes echoSD echoHandler (1 :: 0 :: 0 :: 0 :: 0 :: 1 :: pingBytes)
    [] [] rfl rfl rfl rfl rfl

/-- Claim C4: on a message the codec cannot decode, the session writes
exactly one raw response carrying the failure description, the write does
not go through (or depend on) the `Encode` of the codec, the connection is not
closed, and the loop returns to `Reading` so the remaining input — e.g. a
following well-formed message — is processed normally. -/
theorem decode_failure_raw_report {α : Type} (s : Server α)
    (mt : Nat) (request : Bytes) (e : String)
    (rest : List (Except String (Nat × Bytes))) (wrest : List (Option String))
    (hdec : s.protocolHandler.Decode request = Except.error e) :
    (handleConnection s (Except.ok (mt, request) :: rest) (none :: wrest)
      = (Event.read mt request :: Event.write mt (strBytes e) true ::
          (handleConnection s rest wrest).1,
         (handleConnection s rest wrest).2))
    ∧ ∀ enc : Id3 → Id3 → α → Except String Bytes,
        dispatchMessage { s with protocolHandler := ⟨s.protocolHandler.Decode, enc⟩ }
            request
          = strBytes e := by
  constructor
  · rw [handleConnection_cons_ok]
    have hd : dispatchMessage s request = strBytes e := by
      simp [dispatchMessage, hdec]
    rw [hd]
  · intro enc
    simp [dispatchMessage, hdec]

/-- Claim C4 witness: the malformed `badMsg` draws one raw decode-error
write (for every `Encode` whatsoever) and the following well-formed "ping"
message is processed on the same connection. -/
theorem decode_failure_raw_report_witness :
    (handleConnection testServer
        [Except.ok (2, badMsg), Except.ok (2, pingMsg)] [none, none]
      = (Event.read 2 badMsg :: Event.write 2 (strBytes "malformed message") true ::
          (handleConnection testServer [Except.ok (2, pingMsg)] [none]).1,
         (handleConnection testServer [Except.ok (2, pingMsg)] [none]).2))
    ∧ ∀ enc : Id3 → Id3 → Bytes → Except String Bytes,
        dispatchMessage
            { testServer with
              protocolHandler := ⟨testServer.protocolHandler.Decode, enc⟩ }
            badMsg
          = strBytes "malformed message" :=
  decode_failure_raw_report testServer 2 badMsg "malformed message"
    [Except.ok (2, pingMsg)] [none] rfl

/-- Claim C6: when the resolved handler returns an error `e`, the session
writes exactly the bytes of the own error message of `e` (`[]byte(err.Error())`,
not a generic failure) as a raw response and remains open, returning to
`Reading` for the next message. -/
theorem handler_error_reported_session_continues {α : Type} (s : Server α)
    (mt : Nat) (request : Bytes) (srv me : Id3) (data : α)
    (h : Handler α) (e : String)
    (rest : List (Except String (Nat × Bytes))) (wrest : List (Option String))
    (hdec : s.protocolHandler.Decode request = Except.ok (srv, me, data))
    (hep : EndpointHandler (goMapGet s.services srv) me = Except.ok h)
    (hres : h data = Except.error e) :
    handleConnection s (Except.ok (mt, request) :: rest) (none :: wrest)
      = (Event.read mt request :: Event.write mt (strBytes e) true ::
          (handleConnection s rest wrest).1,
         (handleConnection s rest wrest).2) := by
  rw [handleConnection_cons_ok]
  have hd : dispatchMessage s request = strBytes e := by
    simp [dispatchMessage, hdec, hep, hres]
  rw [hd]

/-- Claim C6 witness: the failing handler of method `(0,0,2)` reports the
handler error "boom" and the session stays in the loop. -/
theorem handler_error_reported_witness :
    handleConnection testServer [Except.ok (2, boomMsg)] [none]
      = (Event.read 2 boomMsg :: Event.write 2 (strBytes "boom") true ::
          (handleConnection testServer [] []).1,
         (handleConnection testServer [] []).2) :=
  handler_error_reported_session_continues testServer 2 boomMsg
    (1, 0, 0) (0, 0, 2) pingBytes boomHandler "boom" [] [] rfl rfl rfl

/-- Claim C7: when the handler succeeds but the `Encode` of the codec fails, the
session writes the encoding failure as a raw response (the write carries
the bytes of the error itself, not a codec product) and returns to `Reading` with
the session open. -/
theorem encode_failure_reported_session_continues {α : Type} (s : Server α)
    (mt : Nat) (request : Bytes) (srv me : Id3) (data res : α)
    (h : Handler α) (e : String)
    (rest : List (Except String (Nat × Bytes))) (wrest : List (Option String))
    (hdec : s.protocolHandler.Decode request = Except.ok (srv, me, data))
    (hep : EndpointHandler (goMapGet s.services srv) me = Except.ok h)
    (hres : h data = Except.ok res)
    (henc : s.protocolHandler.Encode srv me res = Except.error e) :
    handleConnection s (Except.ok (mt, request) :: rest) (none :: wrest)
      = (Event.read mt request :: Event.write mt (strBytes e) true ::
          (handleConnection s rest wrest).1,
         (handleConnection s rest wrest).2) := by
  rw [handleConnection_cons_ok]
  have hd : dispatchMessage s request = strBytes e := by
    simp [dispatchMessage, hdec, hep, hres, henc]
  rw [hd]

/-- Claim C7 witness: on the server with the always-failing `Encode`, a
successful echo dispatch reports "encode failed" raw and the loop goes on. -/
theorem encode_failure_reported_witness :
    handleConnection badEncodeServer [Except.ok (2, pingMsg)] [none]
      = (Event.read 2 pingMsg :: Event.write 2 (strBytes "encode failed") true ::
          (handleConnection badEncodeServer [] []).1,
         (handleConnection badEncodeServer [] []).2) :=
  encode_failure_reported_session_continues badEncodeServer 2 pingMsg
    (1, 0, 0) (0, 0, 1) pingBytes pingBytes echoHandler "encode failed"
    [] [] rfl rfl rfl rfl

/-! ## Whole-trace invariants of the loop -/

/-- Checks that every failed write attempt in a trace is terminal: it is
followed by exactly one logger call and the close of the connection, and
nothing else — no further read and no further write. -/
def failedWriteTerminal : List Event → Bool
  | [] => true
  | Event.read _ _ :: rest => failedWriteTerminal rest
  | Event.readFailed :: rest => failedWriteTerminal rest
  | Event.log _ :: rest => failedWriteTerminal rest
  | Event.close :: rest => failedWriteTerminal rest
  | Event.write _ _ true :: rest => failedWriteTerminal rest
  | Event.write _ _ false :: rest =>
    match rest with
    | [Event.log _, Event.close] => true
    | _ => false

/-- Checks that `close` is terminal in a trace: nothing follows it. -/
def closeIsLast : List Event → Bool
  | [] => true
  | Event.close :: rest => rest.isEmpty
  | Event.read _ _ :: rest => closeIsLast rest
  | Event.readFailed :: rest => closeIsLast rest
  | Event.log _ :: rest => closeIsLast rest
  | Event.write _ _ _ :: rest => closeIsLast rest

/-- Claim C5: on every session trace, any write to the transport that fails
— a raw error report as much as an encoded response — is followed only by
the logger call and the close of the connection, and `close` is terminal:
after a write failure the session performs no further read or write. -/
theorem write_failure_closes_session {α : Type} (s : Server α)
    (reads : List (Except String (Nat × Bytes))) (writes : List (Option String)) :
    failedWriteTerminal (handleConnection s reads writes).1 = true
    ∧ closeIsLast (handleConnection s reads writes).1 = true := by
  induction reads generalizing writes with
  | nil => simp [handleConnection, failedWriteTerminal, closeIsLast]
  | cons r rest ih =>
    cases r with
    | error e => simp [handleConnection, failedWriteTerminal, closeIsLast]
    | ok p =>
      obtain ⟨mt, request⟩ := p
      cases writes with
      | nil =>
        have h := ih []
        simp [handleConnection, failedWriteTerminal, closeIsLast, h.1, h.2]
      | cons w wrest =>
        cases w with
        | none =>
          have h := ih wrest
          simp [handleConnection, failedWriteTerminal, closeIsLast, h.1, h.2]
        | some werr =>
          simp [handleConnection, failedWriteTerminal, closeIsLast]

/-- The loop returns its `Server` unchanged, whatever the inbound traffic. -/
theorem handleConnection_server_eq {α : Type} (s : Server α)
    (reads : List (Except String (Nat × Bytes))) (writes : List (Option String)) :
    (handleConnection s reads writes).2 = s := by
  induction reads generalizing writes with
  | nil => rfl
  | cons r rest ih =>
    cases r with
    | error e => rfl
    | ok p =>
      obtain ⟨mt, request⟩ := p
      cases writes with
      | nil => simpa [handleConnection] using ih []
      | cons w wrest =>
        cases w with
        | none => simpa [handleConnection] using ih wrest
        | some werr => rfl

/-- Claim C8: processing messages through the session loop never mutates
the registry — for every registry state and every inbound traffic
(well-formed or not, services known or unknown), the services map after the
loop equals the services map before it; resolution is read-only. -/
theorem session_loop_preserves_registry {α : Type} (s : Server α)
    (reads : List (Except String (Nat × Bytes))) (writes : List (Option String)) :
    (handleConnection s reads writes).2.services = s.services := by
  rw [handleConnection_server_eq]

/-- Checks, carrying the message type of the last read, that every write in
a trace uses the message type of the read that precedes it. -/
def writesUseReadType : Option Nat → List Event → Bool
  | _, [] => true
  | _, Event.read mt _ :: rest => writesUseReadType (some mt) rest
  | cur, Event.write mt _ _ :: rest =>
    decide (cur = some mt) && writesUseReadType cur rest
  | cur, Event.readFailed :: rest => writesUseReadType cur rest
  | cur, Event.log _ :: rest => writesUseReadType cur rest
  | cur, Event.close :: rest => writesUseReadType cur rest

theorem writesUseReadType_handleConnection {α : Type} (s : Server α)
    (cur : Option Nat) (reads : List (Except String (Nat × Bytes)))
    (writes : List (Option String)) :
    writesUseReadType cur (handleConnection s reads writes).1 = true := by
  induction reads generalizing cur writes with
  | nil => simp [handleConnection, writesUseReadType]
  | cons r rest ih =>
    cases r with
    | error e => simp [handleConnection, writesUseReadType]
    | ok p =>
      obtain ⟨mt, request⟩ := p
      cases writes with
      | nil => simp [handleConnection, writesUseReadType, ih]
      | cons w wrest =>
        cases w with
        | none => simp [handleConnection, writesUseReadType, ih]
        | some werr => simp [handleConnection, writesUseReadType]

/-- Claim C10: every response the session writes — the encoded success
response and every raw error report (decode, resolve, handler, encode
failures alike) — is written with the websocket message type read with the
inbound message that triggered it. -/
theorem every_write_uses_inbound_message_type {α : Type} (s : Server α)
    (reads : List (Except String (Nat × Bytes))) (writes : List (Option String)) :
    writesUseReadType none (handleConnection s reads writes).1 = true :=
  writesUseReadType_handleConnection s none reads writes

end Websocket
